import Mathlib

/-!
Verification of the laminar-markets Rust SDK against its specification.

The development shallowly embeds the client logic of `src/lib.rs` and the
decoders of `src/types/order.rs`:

* machine integers (`u64`, `u8`, addresses) are modelled as `Nat`; wrapping
  u64 arithmetic is written with an explicit `% 2 ^ 64` where the source can
  overflow;
* the network layer is abstracted away: a client call is a pure function of
  the decoded data it would have fetched (the per-kind event lists of the
  account's `OrderBookStore`, the optional book-side resources, the ledger's
  sequence number, the outcome of each submission attempt);
* fallible Rust code (`Result<_, anyhow::Error>`, serde deserializers)
  becomes `Except Err _`; the serde map visitors are embedded as functions of
  the already-split optional fields of the JSON object they visit;
* the sentinel-terminated queue traversal of `OrderPriceLevel::deserialize`,
  which is a `while` loop in the source, is embedded with an explicit fuel
  parameter: `none` means the loop has not finished within the given fuel.

All definitions live in the `Laminar` namespace to avoid clashing with
Mathlib names (`Id`, `Order`, ...).
-/

namespace Laminar

/-- `u64::MAX`, the sentinel index terminating an order-queue traversal. -/
def U64MAX : Nat := 2 ^ 64 - 1

/-- Modulus of `u64` arithmetic. -/
def U64MOD : Nat := 2 ^ 64

/-- `types/order.rs`: `Id { creation_num: U64, addr: Address }`.
Addresses are modelled as `Nat`. Equality is structural, as derived in the
source via `PartialEq, Eq`. -/
structure Id where
  creation_num : Nat
  addr : Nat
deriving DecidableEq, Repr

/-- `types/order.rs`: `enum Side { Bid = 0, Ask = 1 }`. -/
inductive Side where
  | Bid
  | Ask
deriving DecidableEq, Repr

/-- `types/order.rs`: `enum TimeInForce { GoodTillCanceled, ImmediateOrCancel, FillOrKill }`. -/
inductive TimeInForce where
  | GoodTillCanceled
  | ImmediateOrCancel
  | FillOrKill
deriving DecidableEq, Repr

/-- `types/order.rs`: `enum State { Open = 0, PartiallyFilled = 1, Closed = 2 }`. -/
inductive State where
  | Open
  | PartiallyFilled
  | Closed
deriving DecidableEq, Repr

/-- `types/events.rs`: `TypeInfo` (module/struct names hex-decoded to strings). -/
structure TypeInfo where
  account_address : Nat
  module_name : String
  struct_name : String
deriving DecidableEq, Repr

/-- `types/events.rs`: `CreateOrderBookEvent`. -/
structure CreateOrderBookEvent where
  book_id : Id
  creator : Nat
  base : TypeInfo
  quote : TypeInfo
  price_decimals : Nat
  size_decimals : Nat
  min_size_amount : Nat
  base_decimals : Nat
  quote_decimals : Nat
  time : Nat
deriving DecidableEq, Repr

/-- `types/events.rs`: `PlaceOrderEvent`. -/
structure PlaceOrderEvent where
  book_id : Id
  order_id : Id
  side : Side
  price : Nat
  size : Nat
  time_in_force : TimeInForce
  post_only : Bool
  time : Nat
deriving DecidableEq, Repr

/-- `types/events.rs`: `AmendOrderEvent`. -/
structure AmendOrderEvent where
  book_id : Id
  order_id : Id
  amend_id : Id
  side : Side
  price : Nat
  size : Nat
  time : Nat
deriving DecidableEq, Repr

/-- `types/events.rs`: `CancelOrderEvent` (`reason` is a raw `u8`). -/
structure CancelOrderEvent where
  book_id : Id
  order_id : Id
  cancel_id : Id
  side : Side
  reason : Nat
  time : Nat
deriving DecidableEq, Repr

/-- `types/events.rs`: `FillEvent`. -/
structure FillEvent where
  book_id : Id
  order_id : Id
  side : Side
  price : Nat
  fill_size : Nat
  fee : Nat
  fee_rate : Nat
  time : Nat
  remaining_size : Nat
  is_maker : Bool
deriving DecidableEq, Repr

/-- `types/order.rs`: the `Order` view struct assembled by `get_order` (and
decoded from book snapshots, where `state` and `fills` are serde-skipped and
defaulted). -/
structure Order where
  id : Id
  side : Side
  price : Nat
  size : Nat
  post_only : Bool
  remaining_size : Nat
  state : State
  fills : List FillEvent
deriving DecidableEq, Repr

/-- Unified error type standing for the `anyhow::Error` values produced by
the client and the serde `Error::custom`/`missing_field` values produced by
the decoders.  One constructor per distinct error site. -/
inductive Err where
  /-- `get_place_event`: "order not found". -/
  | orderNotFound
  /-- `fetch_orderbook_side`: "book not found". -/
  | bookNotFound
  /-- `OrderPriceLevel::deserialize`: "failed finding order in nodes". -/
  | nodeNotFound
  /-- `OrderPriceLevel::deserialize`: "failed fetching order out of option". -/
  | emptyOrderSlot
  /-- `OrderPriceLevel::deserialize`: `missing_field("key")`. -/
  | missingKey
  /-- `OrderPriceLevel::deserialize`: `missing_field("value")`. -/
  | missingValue
  /-- "failed parsing string as u64" / "failed parsing string as usize". -/
  | badIntegerString
  /-- `OrderBookSide::deserialize`: `missing_field("nodes")`. -/
  | missingNodes
  /-- `OrderBookSide::deserialize`: `missing_field("removed_nodes")`. -/
  | missingRemovedNodes
  /-- `OrderBook::deserialize`: `missing_field("id")`. -/
  | missingId
  /-- `OrderBook::deserialize`: `missing_field("instrument")`. -/
  | missingInstrument
  /-- `OrderBook::deserialize`: "either asks or bids needs to be provided". -/
  | bothSidesMissing
deriving DecidableEq, Repr

/-! ## Event fetch (`lib.rs` lines 578-746)

`get_dex_events::<T>` fetches the entire event-log field named by
`T::event_store_field()` from the account's `OrderBookStore` resource and
decodes every entry.  The environment of a pure run is therefore the decoded
content of the five fields, one list per event kind. -/

/-- The decoded content of the account's `OrderBookStore` event fields, one
list per `EventStoreField` implementor, in emission order. -/
structure EventStore where
  create_orderbook_events : List CreateOrderBookEvent
  place_order_events : List PlaceOrderEvent
  amend_order_events : List AmendOrderEvent
  cancel_order_events : List CancelOrderEvent
  fill_events : List FillEvent
deriving DecidableEq, Repr

/-- `LaminarClient::get_dex_events::<T>`: returns the full decoded event list
of the kind's field; in the pure embedding the fetch collapses to the
environment's list itself. -/
def get_dex_events {E : Type} (events : List E) : List E :=
  events

/-- `LaminarClient::get_filtered_dex_events`, kept with its intermediate
value: the source builds `result` by pushing every entry satisfying
`predicate` (a `filter`), then returns `res` — the unfiltered input.  The
first component is the dead `result` vector, the second the value actually
returned. -/
def get_filtered_dex_events_run {E : Type} (events : List E) (predicate : E → Bool) :
    List E × List E :=
  (List.filter predicate (get_dex_events events), get_dex_events events)

/-- `LaminarClient::get_filtered_dex_events`: the value returned to callers. -/
def get_filtered_dex_events {E : Type} (events : List E) (predicate : E → Bool) : List E :=
  (get_filtered_dex_events_run events predicate).2

/-- `LaminarClient::fetch_order_books` (predicate `|_| true`). -/
def fetch_order_books (store : EventStore) : List CreateOrderBookEvent :=
  get_filtered_dex_events store.create_orderbook_events (fun _ => true)

/-- `LaminarClient::fetch_all_place_events` (predicate `e.book_id == book_id`). -/
def fetch_all_place_events (store : EventStore) (book_id : Id) : List PlaceOrderEvent :=
  get_filtered_dex_events store.place_order_events (fun e => e.book_id = book_id)

/-- `LaminarClient::fetch_all_amend_events`. -/
def fetch_all_amend_events (store : EventStore) (book_id : Id) : List AmendOrderEvent :=
  get_filtered_dex_events store.amend_order_events (fun e => e.book_id = book_id)

/-- `LaminarClient::fetch_all_cancel_events`. -/
def fetch_all_cancel_events (store : EventStore) (book_id : Id) : List CancelOrderEvent :=
  get_filtered_dex_events store.cancel_order_events (fun e => e.book_id = book_id)

/-- `LaminarClient::fetch_all_fill_events`. -/
def fetch_all_fill_events (store : EventStore) (book_id : Id) : List FillEvent :=
  get_filtered_dex_events store.fill_events (fun e => e.book_id = book_id)

/-- `LaminarClient::get_amends_internal` (predicate `order_id == e.order_id`). -/
def get_amends_internal (store : EventStore) (order_id : Id) : List AmendOrderEvent :=
  get_filtered_dex_events store.amend_order_events (fun e => order_id = e.order_id)

/-- `LaminarClient::get_fills_internal` (predicate `order_id == e.order_id`). -/
def get_fills_internal (store : EventStore) (order_id : Id) : List FillEvent :=
  get_filtered_dex_events store.fill_events (fun e => order_id = e.order_id)

/-- `LaminarClient::get_place_event`: first place event whose `order_id`
matches, `"order not found"` otherwise. -/
def get_place_event (store : EventStore) (order_id : Id) : Except Err PlaceOrderEvent :=
  match (get_dex_events store.place_order_events).find? (fun e => order_id = e.order_id) with
  | some e => .ok e
  | none => .error .orderNotFound

/-- `LaminarClient::get_cancel_event`: first cancel event whose `order_id`
matches, if any (the `Ok` wrapper around the `Option` carries no failure in
the pure embedding). -/
def get_cancel_event (store : EventStore) (order_id : Id) : Option CancelOrderEvent :=
  (get_dex_events store.cancel_order_events).find? (fun e => order_id = e.order_id)

/-! ## Order state projection (`lib.rs` lines 753-786, `get_order`) -/

/-- The `state` conditional of `get_order` (`lib.rs` lines 766-772):
`Closed` if `remaining_size == 0 || cancel_event.is_some()`, else
`PartiallyFilled` if the gathered fill list is non-empty, else `Open`. -/
def project_state (remaining_size : Nat) (cancel_event : Option CancelOrderEvent)
    (fills : List FillEvent) : State :=
  if remaining_size = 0 || cancel_event.isSome then .Closed
  else if !fills.isEmpty then .PartiallyFilled
  else .Open

/-- The body of `get_order` after the place event has been found
(`lib.rs` lines 755-783): gather the amend/cancel/fill evidence and build
the `Order` record. -/
def project_order (store : EventStore) (order_id : Id) (place_event : PlaceOrderEvent) :
    Order :=
  let amend_events := get_amends_internal store order_id
  let cancel_event := get_cancel_event store order_id
  let fills := get_fills_internal store order_id
  let price_size : Nat × Nat :=
    match amend_events.getLast? with
    | some a => (a.price, a.size)
    | none => (place_event.price, place_event.size)
  let remaining_size : Nat :=
    match fills.getLast? with
    | some f => f.remaining_size
    | none => 0
  { id := order_id
    side := place_event.side
    price := price_size.1
    size := price_size.2
    post_only := place_event.post_only
    remaining_size := remaining_size
    state := project_state remaining_size cancel_event fills
    fills := fills }

/-- `LaminarClient::get_order`: `"order not found"` when no place event
matches, otherwise the projected `Order` view. -/
def get_order (store : EventStore) (order_id : Id) : Except Err Order :=
  match get_place_event store order_id with
  | .error e => .error e
  | .ok place_event => .ok (project_order store order_id place_event)

/-- Inversion: a successful `get_order` run found a place event and returned
its projection. -/
theorem get_order_ok_elim {store : EventStore} {order_id : Id} {o : Order}
    (h : get_order store order_id = .ok o) :
    ∃ pl, get_place_event store order_id = .ok pl ∧ o = project_order store order_id pl := by
  unfold get_order at h
  cases hp : get_place_event store order_id with
  | error e => rw [hp] at h; exact Except.noConfusion h
  | ok pl => rw [hp] at h; exact ⟨pl, rfl, (Except.ok.inj h).symm⟩

/-! ## C1: the filtered fetch returns the unfiltered list -/

/-- C1: for every event list and predicate, `get_filtered_dex_events`
returns the entire unfiltered list (identical to `get_dex_events` for the
same kind) while its dead intermediate vector holds the filtered entries;
consequently every `fetch_all_*` wrapper and the internal per-order gathers
return the full per-kind event log. -/
theorem c1_filtered_fetch_returns_unfiltered :
    (∀ (E : Type) (events : List E) (predicate : E → Bool),
      get_filtered_dex_events events predicate = get_dex_events events ∧
      get_filtered_dex_events events predicate = events ∧
      (get_filtered_dex_events_run events predicate).1 = events.filter predicate) ∧
    (∀ (store : EventStore) (book_id : Id),
      fetch_order_books store = store.create_orderbook_events ∧
      fetch_all_place_events store book_id = store.place_order_events ∧
      fetch_all_amend_events store book_id = store.amend_order_events ∧
      fetch_all_cancel_events store book_id = store.cancel_order_events ∧
      fetch_all_fill_events store book_id = store.fill_events) ∧
    (∀ (store : EventStore) (order_id : Id),
      get_amends_internal store order_id = store.amend_order_events ∧
      get_fills_internal store order_id = store.fill_events) :=
  ⟨fun _ _ _ => ⟨rfl, rfl, rfl⟩,
   fun _ _ => ⟨rfl, rfl, rfl, rfl, rfl⟩,
   fun _ _ => ⟨rfl, rfl⟩⟩

/-! ## Projection lemmas -/

/-- The projected state is `Closed` exactly when the projected remaining
size is zero or a cancel event was found. -/
theorem project_state_closed_iff (r : Nat) (c : Option CancelOrderEvent)
    (f : List FillEvent) :
    project_state r c f = .Closed ↔ r = 0 ∨ c.isSome = true := by
  unfold project_state
  by_cases h1 : r = 0 <;> by_cases h2 : c.isSome <;> by_cases h3 : f.isEmpty <;>
    simp [h1, h2, h3]

/-- The projected state is `PartiallyFilled` exactly when the remaining size
is non-zero, no cancel event was found, and the gathered fill list is
non-empty. -/
theorem project_state_partial_iff (r : Nat) (c : Option CancelOrderEvent)
    (f : List FillEvent) :
    project_state r c f = .PartiallyFilled ↔ ¬r = 0 ∧ ¬c.isSome = true ∧ f ≠ [] := by
  unfold project_state
  by_cases h1 : r = 0 <;> by_cases h2 : c.isSome <;> by_cases h3 : f.isEmpty <;>
    simp_all [List.isEmpty_iff]

/-- The projected state is `Open` exactly when the remaining size is
non-zero, no cancel event was found, and the gathered fill list is empty. -/
theorem project_state_open_iff (r : Nat) (c : Option CancelOrderEvent)
    (f : List FillEvent) :
    project_state r c f = .Open ↔ ¬r = 0 ∧ ¬c.isSome = true ∧ f = [] := by
  unfold project_state
  by_cases h1 : r = 0 <;> by_cases h2 : c.isSome <;> by_cases h3 : f.isEmpty <;>
    simp_all [List.isEmpty_iff]

/-- `get_cancel_event` finds a cancel exactly when one with the queried
order id is in the cancel log. -/
theorem get_cancel_event_isSome_iff (store : EventStore) (order_id : Id) :
    (get_cancel_event store order_id).isSome = true ↔
      ∃ c ∈ store.cancel_order_events, c.order_id = order_id := by
  simp only [get_cancel_event, get_dex_events, List.find?_isSome, decide_eq_true_eq]
  constructor
  · rintro ⟨c, hc, h⟩
    exact ⟨c, hc, h.symm⟩
  · rintro ⟨c, hc, h⟩
    exact ⟨c, hc, h.symm⟩

/-! ## C2: projected price, size and remaining size -/

/-- C2: the projected `(price, size)` are the fields of the last entry of
the amend list gathered for the order id — a list that, by the unfiltered
fetch, is the account's entire amend log — when any amend exists, else the
place event's fields; `remaining_size` is the `remaining_size` of the last
gathered fill when any fill exists, else `0`. -/
theorem c2_projected_fields_from_gathered_lists :
    ∀ (store : EventStore) (order_id : Id) (o : Order),
      get_order store order_id = .ok o →
      get_amends_internal store order_id = store.amend_order_events ∧
      get_fills_internal store order_id = store.fill_events ∧
      (∀ a, (get_amends_internal store order_id).getLast? = some a →
        o.price = a.price ∧ o.size = a.size) ∧
      ((get_amends_internal store order_id).getLast? = none →
        ∀ pl, get_place_event store order_id = .ok pl →
          o.price = pl.price ∧ o.size = pl.size) ∧
      (∀ f, (get_fills_internal store order_id).getLast? = some f →
        o.remaining_size = f.remaining_size) ∧
      ((get_fills_internal store order_id).getLast? = none → o.remaining_size = 0) := by
  intro store oid o h
  obtain ⟨pl, hp, rfl⟩ := get_order_ok_elim h
  refine ⟨rfl, rfl, ?_, ?_, ?_, ?_⟩
  · intro a ha
    constructor <;> simp [project_order, ha]
  · intro ha pl2 hp2
    rw [hp] at hp2
    obtain rfl := Except.ok.inj hp2
    constructor <;> simp [project_order, ha]
  · intro f hf
    simp [project_order, hf]
  · intro hf
    simp [project_order, hf]

/-- Shared example data: a book, an order, its place event, a foreign fill,
a cancel. -/
def wBook : Id := ⟨1, 7⟩

def wOid : Id := ⟨2, 7⟩

def wPlace : PlaceOrderEvent :=
  { book_id := wBook, order_id := wOid, side := .Bid, price := 100, size := 10
    time_in_force := .GoodTillCanceled, post_only := false, time := 1 }

def wFill5 : FillEvent :=
  { book_id := wBook, order_id := wOid, side := .Bid, price := 100, fill_size := 5
    fee := 0, fee_rate := 0, time := 3, remaining_size := 5, is_maker := true }

def wCancel : CancelOrderEvent :=
  { book_id := wBook, order_id := wOid, cancel_id := ⟨9, 7⟩, side := .Bid
    reason := 0, time := 4 }

/-- History holding only the place event. -/
def wStore : EventStore := ⟨[], [wPlace], [], [], []⟩

/-- History holding the place event and one fill with remaining size 5. -/
def wStoreFill : EventStore := ⟨[], [wPlace], [], [], [wFill5]⟩

/-- History holding the place event and one cancel event. -/
def wStoreCancel : EventStore := ⟨[], [wPlace], [], [wCancel], []⟩

/-- Projection of `wStore`: never filled, so remaining size defaults to 0
and the state is `Closed`. -/
def wOrder : Order :=
  { id := wOid, side := .Bid, price := 100, size := 10, post_only := false
    remaining_size := 0, state := .Closed, fills := [] }

/-- Projection of `wStoreFill`. -/
def wOrderPF : Order :=
  { id := wOid, side := .Bid, price := 100, size := 10, post_only := false
    remaining_size := 5, state := .PartiallyFilled, fills := [wFill5] }

/-- Witness for C2 at a concrete one-place history. -/
theorem c2_witness :
    get_order wStore wOid = .ok wOrder ∧
    ((get_amends_internal wStore wOid).getLast? = none →
      ∀ pl, get_place_event wStore wOid = .ok pl →
        wOrder.price = pl.price ∧ wOrder.size = pl.size) :=
  ⟨rfl, (c2_projected_fields_from_gathered_lists wStore wOid wOrder rfl).2.2.2.1⟩

/-! ## C3: the lifecycle state rule -/

/-- C3: the projected state is `Closed` iff the projected remaining size is
zero or a cancel event for the order id exists, else `PartiallyFilled` iff
the gathered fill list is non-empty, else `Open`. -/
theorem c3_state_rule :
    ∀ (store : EventStore) (order_id : Id) (o : Order),
      get_order store order_id = .ok o →
      (o.state = .Closed ↔
        o.remaining_size = 0 ∨ ∃ c ∈ store.cancel_order_events, c.order_id = order_id) ∧
      (o.state = .PartiallyFilled ↔
        ¬o.remaining_size = 0 ∧
          (¬∃ c ∈ store.cancel_order_events, c.order_id = order_id) ∧
          get_fills_internal store order_id ≠ []) ∧
      (o.state = .Open ↔
        ¬o.remaining_size = 0 ∧
          (¬∃ c ∈ store.cancel_order_events, c.order_id = order_id) ∧
          get_fills_internal store order_id = []) := by
  intro store oid o h
  obtain ⟨pl, hp, rfl⟩ := get_order_ok_elim h
  have hst : (project_order store oid pl).state
      = project_state (project_order store oid pl).remaining_size
          (get_cancel_event store oid) (get_fills_internal store oid) := rfl
  rw [hst, project_state_closed_iff, project_state_partial_iff, project_state_open_iff,
    get_cancel_event_isSome_iff]
  exact ⟨Iff.rfl, Iff.rfl, Iff.rfl⟩

/-- Witness for C3 at a concrete history with one fill. -/
theorem c3_witness :
    get_order wStoreFill wOid = .ok wOrderPF ∧
    (wOrderPF.state = .PartiallyFilled ↔
      ¬wOrderPF.remaining_size = 0 ∧
        (¬∃ c ∈ wStoreFill.cancel_order_events, c.order_id = wOid) ∧
        get_fills_internal wStoreFill wOid ≠ []) :=
  ⟨rfl, (c3_state_rule wStoreFill wOid wOrderPF rfl).2.1⟩

/-! ## C4: the `Open` branch is unreachable -/

/-- C4: when the gathered fill list is empty the remaining size defaults to
0 and the state is `Closed`; when it is non-empty the state is `Closed` or
`PartiallyFilled`; the projected state is never `Open`. -/
theorem c4_open_unreachable :
    ∀ (store : EventStore) (order_id : Id) (o : Order),
      get_order store order_id = .ok o →
      (get_fills_internal store order_id = [] →
        o.remaining_size = 0 ∧ o.state = .Closed) ∧
      (get_fills_internal store order_id ≠ [] →
        o.state = .Closed ∨ o.state = .PartiallyFilled) ∧
      o.state ≠ .Open := by
  intro store oid o h
  obtain ⟨pl, hp, rfl⟩ := get_order_ok_elim h
  have hst : (project_order store oid pl).state
      = project_state (project_order store oid pl).remaining_size
          (get_cancel_event store oid) (get_fills_internal store oid) := rfl
  have hempty : get_fills_internal store oid = [] →
      (project_order store oid pl).remaining_size = 0 ∧
        (project_order store oid pl).state = .Closed := by
    intro hf
    have hrem : (project_order store oid pl).remaining_size = 0 := by
      simp [project_order, hf]
    exact ⟨hrem, by rw [hst, project_state_closed_iff]; exact Or.inl hrem⟩
  refine ⟨hempty, ?_, ?_⟩
  · intro hf
    rw [hst]
    unfold project_state
    split_ifs with h1 h2
    · exact Or.inl rfl
    · exact Or.inr rfl
    · exact absurd (by simpa [List.isEmpty_iff] using h2) (by simpa using hf)
  · by_cases hf : get_fills_internal store oid = []
    · rw [(hempty hf).2]; simp
    · rw [hst]
      unfold project_state
      split_ifs with h1 h2 <;> simp_all [List.isEmpty_iff]

/-- Witness for C4 at a concrete one-place history. -/
theorem c4_witness :
    get_order wStore wOid = .ok wOrder ∧ wOrder.state ≠ .Open :=
  ⟨rfl, (c4_open_unreachable wStore wOid wOrder rfl).2.2⟩

/-! ## C5: is `Closed` terminal under appended fills? -/

/-- Append one fill event to a history, leaving the place, amend and cancel
logs unchanged. -/
def appendFill (store : EventStore) (f : FillEvent) : EventStore :=
  { store with fill_events := store.fill_events ++ [f] }

/-- C5 fails on the code: the never-filled order of `wStore` projects to
`Closed` (remaining size defaults to 0), yet appending one fill with
remaining size 5 re-opens it to `PartiallyFilled`. -/
theorem c5_counterexample :
    get_order wStore wOid = .ok wOrder ∧ wOrder.state = .Closed ∧
    get_order (appendFill wStore wFill5) wOid = .ok wOrderPF ∧
    wOrderPF.state = .PartiallyFilled ∧ wOrderPF.state ≠ .Closed :=
  ⟨rfl, rfl, rfl, rfl, by decide⟩

/-- C5 amended: appending one fill keeps the projected state `Closed`
provided a cancel event for the order id exists or the appended fill's
remaining size is zero; `Closed` that arises only from the zero remaining
size default is not preserved otherwise. -/
theorem c5_amended_closed_preserved :
    ∀ (store : EventStore) (order_id : Id) (o : Order) (f : FillEvent),
      get_order store order_id = .ok o → o.state = .Closed →
      (f.remaining_size = 0 ∨ ∃ c ∈ store.cancel_order_events, c.order_id = order_id) →
      ∃ o2, get_order (appendFill store f) order_id = .ok o2 ∧ o2.state = .Closed := by
  intro store oid o f h _hclosed hcond
  obtain ⟨pl, hp, rfl⟩ := get_order_ok_elim h
  have hp2 : get_place_event (appendFill store f) oid = .ok pl := hp
  refine ⟨project_order (appendFill store f) oid pl, ?_, ?_⟩
  · unfold get_order
    rw [hp2]
  · have hlast : (get_fills_internal (appendFill store f) oid).getLast? = some f :=
      List.getLast?_concat _
    have hstate : (project_order (appendFill store f) oid pl).state
        = project_state f.remaining_size (get_cancel_event store oid)
            (get_fills_internal (appendFill store f) oid) := by
      simp [project_order, hlast]
      rfl
    rw [hstate, project_state_closed_iff]
    rcases hcond with h0 | hc
    · exact Or.inl h0
    · exact Or.inr ((get_cancel_event_isSome_iff store oid).mpr hc)

/-- Witness for the amended C5 at a cancelled order. -/
theorem c5_witness :
    get_order wStoreCancel wOid = .ok wOrder ∧ wOrder.state = .Closed ∧
    (wFill5.remaining_size = 0 ∨
      ∃ c ∈ wStoreCancel.cancel_order_events, c.order_id = wOid) ∧
    ∃ o2, get_order (appendFill wStoreCancel wFill5) wOid = .ok o2 ∧
      o2.state = .Closed :=
  ⟨rfl, rfl, Or.inr ⟨wCancel, List.Mem.head _, rfl⟩,
   c5_amended_closed_preserved wStoreCancel wOid wOrder wFill5 rfl rfl
     (Or.inr ⟨wCancel, List.Mem.head _, rfl⟩)⟩

/-! ## Transaction submitter (`lib.rs` lines 495-576)

`submit_tx` signs a payload at the current local sequence number and submits
it.  The network round trips are abstracted into the data they would
return: the outcome of the submission call and the sequence number the
ledger would report for the account.  `build_and_submit_tx` loops over up to
`SUBMIT_ATTEMPTS` calls of `submit_tx`; a run of the loop is abstracted into
the per-attempt outcomes. -/

/-- `aptos_api_types::AptosErrorCode`, restricted to the variants matched in
`submit_tx` plus representatives of the catch-all arm. -/
inductive AptosErrorCode where
  | invalidTransactionUpdate
  | sequenceNumberTooOld
  | vmError
  | accountNotFound
  | invalidInput
  | internalError
deriving DecidableEq, Repr

/-- The error codes on which `submit_tx` resynchronizes the sequence number
(`lib.rs` lines 513-515). -/
def isResyncCode (c : AptosErrorCode) : Bool :=
  match c with
  | .invalidTransactionUpdate => true
  | .sequenceNumberTooOld => true
  | .vmError => true
  | _ => false

/-- The possible failures of one `submit_tx` attempt, standing for the
`anyhow::Error` values it can return. -/
inductive SubmitErr where
  /-- An API rejection with the given error code. -/
  | api (code : AptosErrorCode)
  /-- A non-API `RestError` (transport failure and the like). -/
  | rest
  /-- `serde_json` failure while decoding the emitted events. -/
  | eventDecodeFailed
  /-- "not a user transaction". -/
  | notUserTransaction
  /-- A not-found error surfaced by a nested call. -/
  | resourceMissing
  /-- "failed submitting tx": the defensive fallback after the retry loop. -/
  | submissionFailed
deriving DecidableEq, Repr

/-- Outcome of the `aptos_client.submit` round trip of one attempt. -/
inductive SubmitOutcome where
  /-- Accepted; waiting for finality produced a user transaction whose
  decoded Laminar events are abstracted into a transaction tag. -/
  | accepted (tx : Nat)
  /-- Rejected with `RestError::Api` carrying the given code. -/
  | apiError (code : AptosErrorCode)
  /-- Failed with a non-API `RestError`. -/
  | restError
deriving DecidableEq, Repr

/-- `LaminarClient::submit_tx`, as a function of the local sequence number,
the submission outcome, and the sequence number `get_sequence_number` would
fetch from the ledger.  Returns the call result together with the new local
sequence number.  On a rejection whose code is in the resync set the local
counter becomes `max(fetched, local + 1)` — `local + 1` computed in
wrapping `u64` arithmetic as in the source — and on any other outcome it is
left untouched. -/
def submit_tx (localSeq fetchedSeq : Nat) (outcome : SubmitOutcome) :
    Except SubmitErr Nat × Nat :=
  match outcome with
  | .accepted tx => (.ok tx, localSeq)
  | .apiError code =>
    if isResyncCode code then
      (.error (.api code), max fetchedSeq ((localSeq + 1) % U64MOD))
    else
      (.error (.api code), localSeq)
  | .restError => (.error .rest, localSeq)

/-- `SUBMIT_ATTEMPTS` (`lib.rs` line 35). -/
def SUBMIT_ATTEMPTS : Nat := 10

/-- Result of one full `submit_tx` attempt as seen by the retry loop. -/
inductive AttemptResult where
  | ok (tx : Nat)
  | err (e : SubmitErr)
deriving DecidableEq, Repr

/-- The `for i in 0..SUBMIT_ATTEMPTS` loop of `build_and_submit_tx`,
traversing the remaining indices: return the first success; on an error
return it if this is the last attempt index, else fall through to the next
attempt.  The second component counts the attempts actually performed. -/
def build_and_submit_loop (attempt : Nat → AttemptResult) :
    List Nat → Except SubmitErr Nat × Nat
  | [] => (.error .submissionFailed, 0)
  | i :: rest =>
    match attempt i with
    | .ok tx => (.ok tx, 1)
    | .err e =>
      if i = SUBMIT_ATTEMPTS - 1 then (.error e, 1)
      else
        let r := build_and_submit_loop attempt rest
        (r.1, r.2 + 1)

/-- `LaminarClient::build_and_submit_tx`: run the attempt loop over the
indices `0..SUBMIT_ATTEMPTS`, with the `"failed submitting tx"` fallback
when the loop structurally completes. -/
def build_and_submit_tx (attempt : Nat → AttemptResult) : Except SubmitErr Nat × Nat :=
  build_and_submit_loop attempt (List.range SUBMIT_ATTEMPTS)

/-! ## C6: are non-retryable errors returned without a further attempt? -/

/-- An always-failing attempt oracle whose error is a decode failure — a
kind the spec classifies as never retried. -/
def cexAttempt : Nat → AttemptResult := fun _ => .err .eventDecodeFailed

/-- C6 fails on the code: a first attempt failing with a non-retryable
decode error does not make `build_and_submit_tx` return immediately — the
loop performs all 10 attempts before surfacing the error. -/
theorem c6_counterexample :
    cexAttempt 0 = .err .eventDecodeFailed ∧
    build_and_submit_tx cexAttempt = (.error .eventDecodeFailed, 10) ∧
    (build_and_submit_tx cexAttempt).2 ≠ 1 :=
  ⟨rfl, rfl, by decide⟩

/-- C6 amended: `build_and_submit_tx` retries after every failed attempt
regardless of the error's classification; when all `SUBMIT_ATTEMPTS`
attempts fail it performs exactly `SUBMIT_ATTEMPTS` attempts and returns the
final attempt's error verbatim.  Only the sequence-number resync inside
`submit_tx`, not the retry decision, depends on the error kind. -/
theorem c6_amended_all_errors_retried :
    ∀ (attempt : Nat → AttemptResult) (lastErr : SubmitErr),
      (∀ i, i < SUBMIT_ATTEMPTS → ∃ e, attempt i = .err e) →
      attempt (SUBMIT_ATTEMPTS - 1) = .err lastErr →
      build_and_submit_tx attempt = (.error lastErr, SUBMIT_ATTEMPTS) := by
  intro attempt lastErr hall hlast
  obtain ⟨e0, h0⟩ := hall 0 (by decide)
  obtain ⟨e1, h1⟩ := hall 1 (by decide)
  obtain ⟨e2, h2⟩ := hall 2 (by decide)
  obtain ⟨e3, h3⟩ := hall 3 (by decide)
  obtain ⟨e4, h4⟩ := hall 4 (by decide)
  obtain ⟨e5, h5⟩ := hall 5 (by decide)
  obtain ⟨e6, h6⟩ := hall 6 (by decide)
  obtain ⟨e7, h7⟩ := hall 7 (by decide)
  obtain ⟨e8, h8⟩ := hall 8 (by decide)
  have hrange : List.range SUBMIT_ATTEMPTS = [0, 1, 2, 3, 4, 5, 6, 7, 8, 9] := by decide
  have h9 : attempt 9 = .err lastErr := hlast
  unfold build_and_submit_tx
  rw [hrange]
  simp [build_and_submit_loop, h0, h1, h2, h3, h4, h5, h6, h7, h8, h9, SUBMIT_ATTEMPTS]

/-- Witness for the amended C6: the all-decode-failures oracle performs 10
attempts and returns the last error. -/
theorem c6_witness :
    (∀ i, i < SUBMIT_ATTEMPTS → ∃ e, cexAttempt i = .err e) ∧
    cexAttempt (SUBMIT_ATTEMPTS - 1) = .err .eventDecodeFailed ∧
    build_and_submit_tx cexAttempt = (.error .eventDecodeFailed, SUBMIT_ATTEMPTS) :=
  ⟨fun _ _ => ⟨.eventDecodeFailed, rfl⟩, rfl,
   c6_amended_all_errors_retried cexAttempt .eventDecodeFailed
     (fun _ _ => ⟨.eventDecodeFailed, rfl⟩) rfl⟩

/-! ## C7: the sequence-number resync -/

/-- C7: on a rejection with code `InvalidTransactionUpdate`,
`SequenceNumberTooOld` or `VmError`, `submit_tx` sets the local sequence
number to `max(fetched, local + 1)`, which is at least `local + 1` (no
regression); on any other error — another API code or a non-API rest error
— the local sequence number is unchanged (as it also is on acceptance). -/
theorem c7_resync_rule :
    ∀ (localSeq fetchedSeq : Nat) (code : AptosErrorCode),
      localSeq + 1 < U64MOD →
      (isResyncCode code = true →
        (submit_tx localSeq fetchedSeq (.apiError code)).2
            = max fetchedSeq (localSeq + 1) ∧
        localSeq + 1 ≤ (submit_tx localSeq fetchedSeq (.apiError code)).2) ∧
      (isResyncCode code = false →
        (submit_tx localSeq fetchedSeq (.apiError code)).2 = localSeq) ∧
      (submit_tx localSeq fetchedSeq .restError).2 = localSeq ∧
      (∀ tx, (submit_tx localSeq fetchedSeq (.accepted tx)).2 = localSeq) := by
  intro localSeq fetchedSeq code hlt
  have hmod : (localSeq + 1) % U64MOD = localSeq + 1 := Nat.mod_eq_of_lt hlt
  refine ⟨?_, ?_, rfl, fun _ => rfl⟩
  · intro hr
    constructor
    · simp [submit_tx, hr, hmod]
    · simp [submit_tx, hr, hmod]
  · intro hr
    simp [submit_tx, hr]

/-- Witness for C7 at a concrete stale-sequence rejection. -/
theorem c7_witness :
    (5 : Nat) + 1 < U64MOD ∧
    (isResyncCode .sequenceNumberTooOld = true →
      (submit_tx 5 100 (.apiError .sequenceNumberTooOld)).2 = max 100 (5 + 1) ∧
      5 + 1 ≤ (submit_tx 5 100 (.apiError .sequenceNumberTooOld)).2) :=
  ⟨by norm_num [U64MOD],
   (c7_resync_rule 5 100 .sequenceNumberTooOld (by norm_num [U64MOD])).1⟩

/-! ## Queue decoder (`types/order.rs` lines 267-372)

`OrderPriceLevel::deserialize` parses the `key` field (a string-encoded
`u64` price) and the `value` field (an `OrderQueue`), then resolves the
queue by chasing `head`/`next` indices through `nodes` until the sentinel
`u64::MAX`.  The `while` loop of the source has no bound: it is embedded
with a fuel parameter, `none` meaning the loop has not finished within
`fuel` iterations (so `∀ fuel, ... = none` states non-termination). -/

/-- `types/order.rs`: `GuardedIdx { value: u64 }` (string-decoded). -/
structure GuardedIdx where
  value : Nat
deriving DecidableEq, Repr

/-- `types/order.rs`: `OrderOption { vec: Vec<Order> }` — the Move option
container that must hold exactly one order. -/
structure OrderOption where
  vec : List Order
deriving DecidableEq, Repr

/-- `types/order.rs`: `OrderNode { next: GuardedIdx, value: OrderOption }`. -/
structure OrderNode where
  next : GuardedIdx
  value : OrderOption
deriving DecidableEq, Repr

/-- `types/order.rs`: `OrderQueue { head: GuardedIdx, nodes: Vec<OrderNode> }`. -/
structure OrderQueue where
  head : GuardedIdx
  nodes : List OrderNode
deriving DecidableEq, Repr

/-- Rust `str::parse::<u64>`: an optional leading `+`, then one or more
ascii digits, value below `2^64`. -/
def parseU64 (s : String) : Option Nat :=
  let cs : List Char :=
    match s.toList with
    | '+' :: rest => rest
    | cs => cs
  if cs ≠ [] ∧ cs.all Char.isDigit then
    let v := cs.foldl (fun acc c => acc * 10 + (c.toNat - 48)) 0
    if v < U64MOD then some v else none
  else none

/-- The queue-resolution loop of `OrderPriceLevel::deserialize` (lines
345-356): while `current != u64::MAX`, look the node up (else
"failed finding order in nodes"), step `current` to its `next` pointer, and
push the single order of its option container (else "failed fetching order
out of option").  `acc` holds the traversed orders in reverse. -/
def decodeOrderQueueAux (nodes : List OrderNode) :
    Nat → List Order → Nat → Option (Except Err (List Order))
  | _, _, 0 => none
  | current, acc, fuel + 1 =>
    if current = U64MAX then some (.ok acc.reverse)
    else
      match nodes.get? current with
      | none => some (.error .nodeNotFound)
      | some node =>
        match node.value.vec.head? with
        | none => some (.error .emptyOrderSlot)
        | some o => decodeOrderQueueAux nodes node.next.value (o :: acc) fuel

/-- Resolve a whole `OrderQueue` starting from its head pointer. -/
def decodeOrderQueue (q : OrderQueue) (fuel : Nat) : Option (Except Err (List Order)) :=
  decodeOrderQueueAux q.nodes q.head.value [] fuel

/-- `types/order.rs`: the decoded `OrderPriceLevel { price, orders }`. -/
structure OrderPriceLevel where
  price : Nat
  orders : List Order
deriving DecidableEq, Repr

/-- `OrderPriceLevel::deserialize` over the optional `key`/`value` fields of
the visited map (`left`/`right` are ignored by the source): present fields
are decoded as the loop visits them, then the missing-field checks run in
source order (`key` before `value`). -/
def decodeOrderPriceLevel (key : Option String) (value : Option OrderQueue)
    (fuel : Nat) : Option (Except Err OrderPriceLevel) :=
  match key with
  | some s =>
    match parseU64 s with
    | none => some (.error .badIntegerString)
    | some price =>
      match value with
      | none => some (.error .missingValue)
      | some q =>
        match decodeOrderQueue q fuel with
        | none => none
        | some (.error e) => some (.error e)
        | some (.ok orders) => some (.ok ⟨price, orders⟩)
  | none =>
    match value with
    | none => some (.error .missingKey)
    | some q =>
      match decodeOrderQueue q fuel with
      | none => none
      | some (.error e) => some (.error e)
      | some (.ok _) => some (.error .missingKey)

/-! ## C10: does the queue traversal always terminate? -/

/-- A resting order used to populate concrete queue snapshots. -/
def cycOrder : Order :=
  { id := wOid, side := .Bid, price := 100, size := 10, post_only := false
    remaining_size := 10, state := .Open, fills := [] }

/-- A one-node queue whose node points to itself: `head = 0`,
`nodes[0].next = 0`.  Every pointer is in bounds and every option container
holds exactly one order, yet the chain never reaches the sentinel. -/
def cycQueue : OrderQueue :=
  { head := ⟨0⟩, nodes := [⟨⟨0⟩, ⟨[cycOrder]⟩⟩] }

/-- On the self-loop queue the traversal step returns to index 0 with one
more gathered order, for any accumulator and any fuel. -/
theorem decodeOrderQueueAux_cyc (acc : List Order) :
    ∀ fuel, decodeOrderQueueAux cycQueue.nodes 0 acc fuel = none := by
  intro fuel
  induction fuel generalizing acc with
  | zero => rfl
  | succ n ih =>
    have h0 : (0 = U64MAX) = False := by simp [U64MAX]
    simp only [decodeOrderQueueAux, h0, cycQueue, List.get?, Option.some.injEq]
    exact ih (cycOrder :: acc)

/-- C10 fails on the code: on the self-loop queue the traversal never
terminates — for every fuel bound, neither the sentinel is reached nor a
decode error produced, both as a bare queue and inside the price-level
decoder.  The defensive cycle bound the spec requires is absent. -/
theorem c10_cycle_never_terminates :
    ∀ fuel, decodeOrderQueue cycQueue fuel = none ∧
      decodeOrderPriceLevel (some "1") (some cycQueue) fuel = none := by
  intro fuel
  have h := decodeOrderQueueAux_cyc [] fuel
  constructor
  · exact h
  · have hq : decodeOrderQueue cycQueue fuel = none := h
    have hp1 : parseU64 "1" = some 1 := by decide
    simp only [decodeOrderPriceLevel, hp1, hq]

/-! ## Book-side decoder (`types/order.rs` lines 374-452) -/

/-- The tombstone filter of `OrderBookSide::deserialize` (lines 439-444):
keep the nodes whose positional index is not in `removed_nodes`, in order.
The source's `HashSet<usize>` is modelled by a list of indices of which only
membership is used. -/
def orderBookSideLevels (nodes : List OrderPriceLevel) (removed : List Nat) :
    List OrderPriceLevel :=
  ((nodes.enum).filter (fun p => !(decide (p.1 ∈ removed)))).map Prod.snd

/-- The decoded side: the surviving price levels. -/
structure OrderBookSide where
  levels : List OrderPriceLevel
deriving DecidableEq, Repr

/-- `OrderBookSide::deserialize` over the optional `nodes`/`removed_nodes`
fields (`max`/`min`/`root`/`single_splay` are ignored by the source);
`nodes` holds the already elementwise-decoded price levels. -/
def orderBookSideDeserialize (nodes : Option (List OrderPriceLevel))
    (removed_nodes : Option (List Nat)) : Except Err OrderBookSide :=
  match nodes with
  | none => .error .missingNodes
  | some ns =>
    match removed_nodes with
    | none => .error .missingRemovedNodes
    | some removed => .ok ⟨orderBookSideLevels ns removed⟩

/-! ## C9: tombstoned nodes are dropped, survivors kept in order -/

/-- C9: for every tombstone set within the node indices, the decoded output
is a sublist of the nodes (original order preserved), its members are
exactly the values of the surviving (non-tombstoned) indices, and the kept
and tombstoned indices together count every node. -/
theorem c9_tombstone_filter :
    ∀ (nodes : List OrderPriceLevel) (removed : List Nat),
      (∀ i ∈ removed, i < nodes.length) →
      (orderBookSideLevels nodes removed).Sublist nodes ∧
      (∀ lvl, lvl ∈ orderBookSideLevels nodes removed ↔
        ∃ i, ¬i ∈ removed ∧ nodes[i]? = some lvl) ∧
      (orderBookSideLevels nodes removed).length
          + ((List.range nodes.length).filter (fun i => decide (i ∈ removed))).length
        = nodes.length := by
  intro nodes removed _hsub
  refine ⟨?_, ?_, ?_⟩
  · have h1 : (nodes.enum.filter (fun p => !(decide (p.1 ∈ removed)))).Sublist nodes.enum :=
      List.filter_sublist _
    have h2 := h1.map Prod.snd
    rwa [List.enum_map_snd] at h2
  · intro lvl
    unfold orderBookSideLevels
    simp only [List.mem_map, List.mem_filter, List.mem_enum_iff_getElem?,
      Bool.not_eq_true', decide_eq_false_iff_not]
    constructor
    · rintro ⟨⟨i, x⟩, ⟨hget, hmem⟩, rfl⟩
      exact ⟨i, hmem, hget⟩
    · rintro ⟨i, hmem, hget⟩
      exact ⟨⟨i, lvl⟩, ⟨hget, hmem⟩, rfl⟩
  · unfold orderBookSideLevels
    rw [List.length_map, ← List.countP_eq_length_filter, ← List.countP_eq_length_filter]
    have hmap : List.countP (fun p => !(decide (p.1 ∈ removed))) nodes.enum
        = List.countP (fun i => !(decide (i ∈ removed))) (List.range nodes.length) := by
      rw [← List.enum_map_fst nodes, List.countP_map]
      rfl
    rw [hmap]
    have hsplit := List.length_eq_countP_add_countP (fun i => decide (i ∈ removed))
      (l := List.range nodes.length)
    rw [List.length_range] at hsplit
    have hnot : List.countP (fun i => !(decide (i ∈ removed))) (List.range nodes.length)
        = List.countP (fun a => ¬(decide (a ∈ removed)) = true) (List.range nodes.length) := by
      apply List.countP_congr
      intro i _
      by_cases h : i ∈ removed <;> simp [h]
    rw [hnot]
    omega

/-- Witness for C9 on a three-level side with the middle index tombstoned. -/
def wLevelA : OrderPriceLevel := ⟨10, [cycOrder]⟩

def wLevelB : OrderPriceLevel := ⟨20, []⟩

def wLevelC : OrderPriceLevel := ⟨30, []⟩

theorem c9_witness :
    (∀ i ∈ [1], i < [wLevelA, wLevelB, wLevelC].length) ∧
    (orderBookSideLevels [wLevelA, wLevelB, wLevelC] [1]).Sublist
      [wLevelA, wLevelB, wLevelC] :=
  ⟨by decide, (c9_tombstone_filter [wLevelA, wLevelB, wLevelC] [1] (by decide)).1⟩

/-! ## Book assembler (`types/order.rs` lines 454-560, `lib.rs` lines 299-340) -/

/-- `types/order.rs`: `Instrument` (owner address as `Nat`). -/
structure Instrument where
  owner : Nat
  price_decimals : Nat
  size_decimals : Nat
  min_size_amount : Nat
  base_decimals : Nat
  quote_decimals : Nat
deriving DecidableEq, Repr

/-- `BTreeMap::insert` on an association list kept sorted by key ascending,
replacing an existing binding. -/
def btreeInsert (m : List (Nat × List Order)) (k : Nat) (v : List Order) :
    List (Nat × List Order) :=
  match m with
  | [] => [(k, v)]
  | (k1, v1) :: rest =>
    if k < k1 then (k, v) :: (k1, v1) :: rest
    else if k = k1 then (k, v) :: rest
    else (k1, v1) :: btreeInsert rest k v

/-- The `for level in &book_side.levels { res.insert(level.price, level.orders) }`
loop of `OrderBook::deserialize`. -/
def levelsToMap (levels : List OrderPriceLevel) : List (Nat × List Order) :=
  levels.foldl (fun m l => btreeInsert m l.price l.orders) []

/-- `types/order.rs`: the decoded `OrderBook` (type parameter tags modelled
as opaque numbers). -/
structure OrderBook where
  id : Id
  instrument : Instrument
  bids : List (Nat × List Order)
  asks : List (Nat × List Order)
  type_tags : List Nat
deriving DecidableEq, Repr

/-- The optional `nodes`/`removed_nodes` fields of one serialized book
side. -/
structure OrderBookSideFields where
  nodes : Option (List OrderPriceLevel)
  removed_nodes : Option (List Nat)
deriving DecidableEq, Repr

/-- The optional fields of a serialized `OrderBook` resource
(`orders`/`signer_addr` are ignored by the source). -/
structure OrderBookFields where
  id : Option Id
  instrument : Option Instrument
  bids : Option OrderBookSideFields
  asks : Option OrderBookSideFields
deriving DecidableEq, Repr

/-- Decode a side field if present: the visitor runs
`map.next_value::<OrderBookSide>()` when the key occurs, so a present but
corrupt side aborts the whole book decode. -/
def transposeSide (s : Option OrderBookSideFields) : Except Err (Option OrderBookSide) :=
  match s with
  | none => .ok none
  | some s => (orderBookSideDeserialize s.nodes s.removed_nodes).map some

/-- `OrderBook::deserialize`: decode the present side values, then check
`id` and `instrument` are present, fail with the both-sides-missing error
when neither `bids` nor `asks` occurred, and default the absent side to an
empty map. -/
def orderBookDeserialize (f : OrderBookFields) : Except Err OrderBook :=
  match transposeSide f.bids with
  | .error e => .error e
  | .ok bids? =>
    match transposeSide f.asks with
    | .error e => .error e
    | .ok asks? =>
      match f.id with
      | none => .error .missingId
      | some id =>
        match f.instrument with
        | none => .error .missingInstrument
        | some instrument =>
          if bids?.isNone && asks?.isNone then .error .bothSidesMissing
          else
            .ok
              { id := id
                instrument := instrument
                bids := levelsToMap ((bids?.map OrderBookSide.levels).getD [])
                asks := levelsToMap ((asks?.map OrderBookSide.levels).getD [])
                type_tags := [] }

/-- An account resource holding a serialized book side type
(`OrderBookBids<B, Q>` or `OrderBookAsks<B, Q>`): its JSON data and its
resource-type parameters. -/
structure BookResource where
  data : OrderBookFields
  type_params : List Nat
deriving DecidableEq, Repr

/-- `LaminarClient::fetch_orderbook_side`: `"book not found"` when the
resource is absent, else decode its data and extend the book's type tags
with the resource's type parameters. -/
def fetch_orderbook_side (res : Option BookResource) : Except Err OrderBook :=
  match res with
  | none => .error .bookNotFound
  | some r =>
    match orderBookDeserialize r.data with
    | .error e => .error e
    | .ok book => .ok { book with type_tags := book.type_tags ++ r.type_params }

/-- `LaminarClient::fetch_orderbook`: fetch the bids-typed resource, then
the asks-typed resource, and graft the asks map onto the bids book. -/
def fetch_orderbook (bidsRes asksRes : Option BookResource) : Except Err OrderBook :=
  match fetch_orderbook_side bidsRes with
  | .error e => .error e
  | .ok bids_book =>
    match fetch_orderbook_side asksRes with
    | .error e => .error e
    | .ok asks_book => .ok { bids_book with asks := asks_book.asks }

/-- A book-side decode can only fail for a missing `nodes` or
`removed_nodes` field. -/
theorem orderBookSideDeserialize_error {n : Option (List OrderPriceLevel)}
    {r : Option (List Nat)} {e : Err}
    (h : orderBookSideDeserialize n r = .error e) :
    e = .missingNodes ∨ e = .missingRemovedNodes := by
  unfold orderBookSideDeserialize at h
  cases n with
  | none => exact Or.inl (Except.error.inj h).symm
  | some ns =>
    cases r with
    | none => exact Or.inr (Except.error.inj h).symm
    | some rem => exact Except.noConfusion h

/-- A present side field never transposes to an error outside the side
decoder's two missing-field errors. -/
theorem transposeSide_error {s : Option OrderBookSideFields} {e : Err}
    (h : transposeSide s = .error e) :
    e = .missingNodes ∨ e = .missingRemovedNodes := by
  cases s with
  | none => exact Except.noConfusion h
  | some s =>
    have h2 : Except.map some (orderBookSideDeserialize s.nodes s.removed_nodes)
        = Except.error e := h
    cases hs : orderBookSideDeserialize s.nodes s.removed_nodes with
    | error e2 =>
      rw [hs] at h2
      obtain rfl := Except.error.inj h2
      exact orderBookSideDeserialize_error hs
    | ok sd =>
      rw [hs] at h2
      exact Except.noConfusion h2

/-- Transposing to a present-but-empty side only happens for an absent
field. -/
theorem transposeSide_ok_none {s : Option OrderBookSideFields}
    (h : transposeSide s = .ok none) : s = none := by
  cases s with
  | none => rfl
  | some s =>
    have h2 : Except.map some (orderBookSideDeserialize s.nodes s.removed_nodes)
        = Except.ok (none : Option OrderBookSide) := h
    cases hs : orderBookSideDeserialize s.nodes s.removed_nodes with
    | error e => rw [hs] at h2; exact Except.noConfusion h2
    | ok sd => rw [hs] at h2; exact Option.noConfusion (Except.ok.inj h2)

/-- The both-sides-missing error is produced only when both the `bids` and
the `asks` fields are absent from the snapshot. -/
theorem orderBookDeserialize_bothSides {f : OrderBookFields}
    (h : orderBookDeserialize f = .error .bothSidesMissing) :
    f.bids = none ∧ f.asks = none := by
  unfold orderBookDeserialize at h
  split at h
  · rename_i e heq
    obtain rfl := Except.error.inj h
    rcases transposeSide_error heq with h1 | h1 <;> exact Err.noConfusion h1
  · rename_i bids? hb
    split at h
    · rename_i e heq
      obtain rfl := Except.error.inj h
      rcases transposeSide_error heq with h1 | h1 <;> exact Err.noConfusion h1
    · rename_i asks? ha
      split at h
      · exact Err.noConfusion (Except.error.inj h)
      · rename_i i hid
        split at h
        · exact Err.noConfusion (Except.error.inj h)
        · rename_i ins hins
          split at h
          · rename_i hcond
            obtain ⟨hb1, ha1⟩ := (Bool.and_eq_true _ _).mp hcond
            exact ⟨transposeSide_ok_none ((Option.isNone_iff_eq_none.mp hb1) ▸ hb),
                   transposeSide_ok_none ((Option.isNone_iff_eq_none.mp ha1) ▸ ha)⟩
          · exact Except.noConfusion h

/-! ## C8: one-sided books -/

/-- Concrete instrument metadata for the examples. -/
def wInstrument : Instrument := ⟨7, 2, 2, 1, 8, 8⟩

/-- A decodable asks-only side field. -/
def wAsksSideFields : OrderBookSideFields := ⟨some [wLevelA], some []⟩

/-- A snapshot holding id, instrument and only the asks side. -/
def wAsksFields : OrderBookFields :=
  ⟨some wBook, some wInstrument, none, some wAsksSideFields⟩

/-- The asks-typed resource carrying that snapshot. -/
def wAsksRes : BookResource := ⟨wAsksFields, [1, 2]⟩

/-- Its decoded book. -/
def wAsksBook : OrderBook := ⟨wBook, wInstrument, [], [(10, [cycOrder])], [1, 2]⟩

/-- C8 fails on the code for the fetch half: the asks-only snapshot decodes
fine (missing bids side defaults to an empty map), yet `fetch_orderbook`
fails with the book-not-found error as soon as the bids-typed resource is
absent, instead of obeying the same one-side rule. -/
theorem c8_counterexample :
    orderBookDeserialize wAsksFields
      = .ok ⟨wBook, wInstrument, [], [(10, [cycOrder])], []⟩ ∧
    fetch_orderbook none (some wAsksRes) = .error .bookNotFound :=
  ⟨rfl, rfl⟩

/-- C8 amended: decoding a snapshot with exactly one side present succeeds
with the missing side as an empty map, and the decoder's both-sides-missing
error occurs exactly when both sides are absent; `fetch_orderbook`, however,
requires both side resources to exist on the ledger — an absent side
resource yields the book-not-found error. -/
theorem c8_amended_one_side_rule :
    (∀ (i : Id) (ins : Instrument) (s : OrderBookSideFields) (sd : OrderBookSide),
      orderBookSideDeserialize s.nodes s.removed_nodes = .ok sd →
      orderBookDeserialize ⟨some i, some ins, some s, none⟩
          = .ok ⟨i, ins, levelsToMap sd.levels, levelsToMap [], []⟩ ∧
      orderBookDeserialize ⟨some i, some ins, none, some s⟩
          = .ok ⟨i, ins, levelsToMap [], levelsToMap sd.levels, []⟩) ∧
    (∀ (i : Id) (ins : Instrument),
      orderBookDeserialize ⟨some i, some ins, none, none⟩ = .error .bothSidesMissing) ∧
    (∀ f : OrderBookFields,
      orderBookDeserialize f = .error .bothSidesMissing → f.bids = none ∧ f.asks = none) ∧
    (∀ r, fetch_orderbook none r = .error .bookNotFound) ∧
    (∀ r b, fetch_orderbook_side r = .ok b →
      fetch_orderbook r none = .error .bookNotFound) := by
  refine ⟨?_, ?_, ?_, ?_, ?_⟩
  · intro i ins s sd h
    constructor <;> simp [orderBookDeserialize, transposeSide, Except.map, h]
  · intro i ins
    rfl
  · exact fun f h => orderBookDeserialize_bothSides h
  · intro r
    rfl
  · intro r b h
    unfold fetch_orderbook
    rw [h]
    rfl

/-- Witness for the amended C8 at the concrete asks-only snapshot. -/
theorem c8_witness :
    orderBookSideDeserialize wAsksSideFields.nodes wAsksSideFields.removed_nodes
        = .ok ⟨[wLevelA]⟩ ∧
    orderBookDeserialize ⟨some wBook, some wInstrument, none, some wAsksSideFields⟩
        = .ok ⟨wBook, wInstrument, levelsToMap [], levelsToMap [wLevelA], []⟩ ∧
    fetch_orderbook_side (some wAsksRes) = .ok wAsksBook ∧
    fetch_orderbook (some wAsksRes) none = .error .bookNotFound :=
  ⟨rfl,
   (c8_amended_one_side_rule.1 wBook wInstrument wAsksSideFields ⟨[wLevelA]⟩ rfl).2,
   rfl,
   c8_amended_one_side_rule.2.2.2.2 (some wAsksRes) wAsksBook rfl⟩

end Laminar
